import Mathlib

/-!
Verification development for the hybrid retrieval / rank-fusion engine of the
classifier bid platform.

Shallow embedding of:
- `app/utils/content_formatter.py` (`ContentFormatter.clean_text_content`)
- `app/services/vectordb_rabbitmq_communication/hybrid_retriever_reciprocal_rank_fusion.py`
  (`HybridRetriever.retrieve`, `_calculate_keyword_scores`,
   `_calculate_contextual_keyword_scores`, `_tokenize`, `_get_basic_stop_words`)
- `app/services/vectordb_rabbitmq_communication/vectordb_rabbitmq_wrapper.py`
  (`VectorDBWrapper.get`, `VectorDBWrapper.query`)
- `app/routes/vector_routes_contexual.py` (`query_vector_store_sync`)

Python text is modelled over `List Char`; Python `dict`s over association
lists with insert-or-overwrite semantics; machine floats over `ℚ` where the
code only adds/divides rationals, and over `ℝ` where `np.log` appears.
Fallible operations (list indexing that can raise `IndexError`) return
`Except String`.
-/

/-! ### Character classes (Python `\s`, `\w`, `\d` on the ASCII texts at hand) -/

/-- Python whitespace (`\s` of `re`, and the default set of `str.strip`). -/
def isPySpace (c : Char) : Bool :=
  c = ' ' || c = '\t' || c = '\n' || c = '\r' || c = '\x0b' || c = '\x0c'

/-- Python `\w`: alphanumerics and underscore. -/
def isWordChar (c : Char) : Bool := c.isAlphanum || c = '_'

/-- Consume a literal; return the remainder on success. -/
def dropLit : List Char → List Char → Option (List Char)
  | [], cs => some cs
  | _ :: _, [] => none
  | l :: ls, c :: cs => if c = l then dropLit ls cs else none

/-! ### The five `re.sub` patterns of `clean_text_content`

Each matcher tries the pattern anchored at the head of the char list and
returns the remainder after the matched span.  Greedy quantifiers whose
follow-set is disjoint from their character class are maximal-munch; the one
place the Python regex engine genuinely backtracks (`[^\n]*` inside the
header pattern, before `\s*Page Number:`) is searched longest-first. -/

/-- Tail of the header pattern: `\s*Page Number: \d+\s*={80,}`. -/
def matchHeaderTail (r : List Char) : Option (List Char) :=
  match dropLit "Page Number: ".data (r.dropWhile isPySpace) with
  | none => none
  | some r2 =>
    let d := (r2.takeWhile Char.isDigit).length
    if d = 0 then none else
    let r4 := (r2.drop d).dropWhile isPySpace
    let e2 := (r4.takeWhile (· = '=')).length
    if e2 < 80 then none else some (r4.drop e2)

/-- Backtracking search for the split of `[^\n]*`, longest first. -/
def matchHeaderTailSearch (r3 : List Char) : ℕ → Option (List Char)
  | 0 => matchHeaderTail r3
  | k + 1 =>
    match matchHeaderTail (r3.drop (k + 1)) with
    | some rem => some rem
    | none => matchHeaderTailSearch r3 k

/-- `={80,}\s*Content Type: [^\n]*\s*Page Number: \d+\s*={80,}`. -/
def matchHeader (cs : List Char) : Option (List Char) :=
  let eq1 := (cs.takeWhile (· = '=')).length
  if eq1 < 80 then none else
  match dropLit "Content Type: ".data ((cs.drop eq1).dropWhile isPySpace) with
  | none => none
  | some r3 => matchHeaderTailSearch r3 (r3.takeWhile (· ≠ '\n')).length

/-- `Page \d+ of \d+`. -/
def matchPageOf (cs : List Char) : Option (List Char) :=
  match dropLit "Page ".data cs with
  | none => none
  | some r1 =>
    let d1 := (r1.takeWhile Char.isDigit).length
    if d1 = 0 then none else
    match dropLit " of ".data (r1.drop d1) with
    | none => none
    | some r3 =>
      let d2 := (r3.takeWhile Char.isDigit).length
      if d2 = 0 then none else some (r3.drop d2)

/-- `Image: [^\n]+`. -/
def matchImage (cs : List Char) : Option (List Char) :=
  match dropLit "Image: ".data cs with
  | none => none
  | some r1 =>
    let n := (r1.takeWhile (· ≠ '\n')).length
    if n = 0 then none else some (r1.drop n)

/-- `={40,}`. -/
def matchSep (cs : List Char) : Option (List Char) :=
  let n := (cs.takeWhile (· = '=')).length
  if n < 40 then none else some (cs.drop n)

/-- `\n{3,}`. -/
def matchNl3 (cs : List Char) : Option (List Char) :=
  let n := (cs.takeWhile (· = '\n')).length
  if n < 3 then none else some (cs.drop n)

/-- `re.sub` driver: scan left to right, at each position try the pattern;
on a (progress-making) match emit the replacement and continue after the
matched span, otherwise emit the character and move on.  Fuelled so that it
is structural; fuel `cs.length` always suffices (each step consumes one fuel
and at least one character). -/
def scanSubF (m : List Char → Option (List Char)) (repl : List Char) :
    ℕ → List Char → List Char
  | 0, cs => cs
  | _ + 1, [] => []
  | f + 1, c :: cs =>
    match m (c :: cs) with
    | some rem =>
      if rem.length ≤ cs.length then repl ++ scanSubF m repl f rem
      else c :: scanSubF m repl f cs
    | none => c :: scanSubF m repl f cs

/-- `re.sub(pattern, repl, text)`. -/
def pySub (m : List Char → Option (List Char)) (repl : List Char)
    (cs : List Char) : List Char :=
  scanSubF m repl cs.length cs

/-- Python `str.strip()`. -/
def pyStrip (cs : List Char) : List Char :=
  (((cs.dropWhile isPySpace).reverse).dropWhile isPySpace).reverse

/-- `ContentFormatter.clean_text_content`: remove content-type/page-number
header blocks, `Page X of Y` references, `Image: …` lines, lingering
`={40,}` separator lines, collapse 3+ newlines to 2, and strip. -/
def cleanTextContent (s : String) : String :=
  if s = "" then "" else
  String.mk (pyStrip
    (pySub matchNl3 ['\n', '\n']
      (pySub matchSep []
        (pySub matchImage []
          (pySub matchPageOf []
            (pySub matchHeader [] s.data))))))

/-- Whether the pattern matches (with progress) anywhere in the text. -/
def hasMatchB (m : List Char → Option (List Char)) : List Char → Bool
  | [] => false
  | c :: cs =>
    (match m (c :: cs) with
     | some rem => rem.length ≤ cs.length
     | none => false) || hasMatchB m cs

/-- A text is artifact-free when none of the five removable patterns occurs
in it and it carries no leading/trailing whitespace. -/
def artifactFree (s : String) : Bool :=
  !hasMatchB matchHeader s.data && !hasMatchB matchPageOf s.data &&
  !hasMatchB matchImage s.data && !hasMatchB matchSep s.data &&
  !hasMatchB matchNl3 s.data && (pyStrip s.data == s.data)

theorem scanSubF_of_not_hasMatch (m : List Char → Option (List Char))
    (repl : List Char) :
    ∀ (cs : List Char), hasMatchB m cs = false → ∀ f, scanSubF m repl f cs = cs := by
  intro cs
  induction cs with
  | nil => intro _ f; cases f <;> rfl
  | cons c cs ih =>
    intro h f
    simp only [hasMatchB, Bool.or_eq_false_iff] at h
    cases f with
    | zero => rfl
    | succ f =>
      simp only [scanSubF]
      cases hm : m (c :: cs) with
      | none => simp [ih h.2 f]
      | some rem =>
        rw [hm] at h
        simp only [decide_eq_false_iff_not] at h
        simp only []
        rw [if_neg h.1, ih h.2 f]

theorem pySub_of_not_hasMatch (m : List Char → Option (List Char))
    (repl : List Char) (cs : List Char) (h : hasMatchB m cs = false) :
    pySub m repl cs = cs :=
  scanSubF_of_not_hasMatch m repl cs h _

theorem cleanTextContent_of_artifactFree (s : String)
    (h : artifactFree s = true) : cleanTextContent s = s := by
  simp only [artifactFree, Bool.and_eq_true, Bool.not_eq_true',
    beq_iff_eq] at h
  obtain ⟨⟨⟨⟨⟨h1, h2⟩, h3⟩, h4⟩, h5⟩, h6⟩
    := h
  unfold cleanTextContent
  by_cases hs : s = ""
  · simp [hs]
  · rw [if_neg hs]
    rw [pySub_of_not_hasMatch _ _ _ h1, pySub_of_not_hasMatch _ _ _ h2,
      pySub_of_not_hasMatch _ _ _ h3, pySub_of_not_hasMatch _ _ _ h4,
      pySub_of_not_hasMatch _ _ _ h5, h6]

/-! ### Python dicts as association lists (insert-or-overwrite, stable key position) -/

/-- `d[k] = v` on a Python dict: overwrite in place if the key exists,
else append. -/
def dictInsert (k : String) (v : α) : List (String × α) → List (String × α)
  | [] => [(k, v)]
  | (k', v') :: t => if k' = k then (k, v) :: t else (k', v') :: dictInsert k v t

/-- Rebuild an association list with dict semantics (models that the Python
maps are dicts, so keys are unique). -/
def toDict (l : List (String × α)) : List (String × α) :=
  l.foldl (fun d p => dictInsert p.1 p.2 d) []

/-- `d.get(k, dflt)`. -/
def getD (l : List (String × α)) (k : String) (dflt : α) : α :=
  match l.lookup k with
  | some v => v
  | none => dflt

/-- Keys of a dict. -/
def keysOf (l : List (String × α)) : List String := l.map Prod.fst

/-- `sorted(xs, key=score, reverse=True)`: stable descending insertion sort. -/
def insertDesc (score : String → ℚ) (x : String) : List String → List String
  | [] => [x]
  | y :: t => if score y < score x then x :: y :: t else y :: insertDesc score x t

/-- Stable sort, descending by `score`. -/
def sortDesc (score : String → ℚ) : List String → List String
  | [] => []
  | x :: t => insertDesc score x (sortDesc score t)

/-- Python `max` over a nonempty list (`0` as junk value on `[]`). -/
def listMax : List ℚ → ℚ
  | [] => 0
  | x :: t => t.foldl max x

/-- Python `min` over a nonempty list (`0` as junk value on `[]`). -/
def listMin : List ℚ → ℚ
  | [] => 0
  | x :: t => t.foldl min x

/-! ### Data model: gateway responses and result records -/

/-- Per-chunk metadata: an open string-to-string mapping. -/
abbrev Meta := List (String × String)

/-- Shape of `collection.get()` (the `embeddings` array, unused by
`retrieve`, is omitted). -/
structure GetResp where
  ids : List String
  documents : List String
  metadatas : List Meta
deriving DecidableEq, Repr

/-- Shape of `collection.query(...)` (the nested `documents`/`metadatas`,
unused by `retrieve`, are omitted). -/
structure QueryResp where
  ids : List (List String)
  distances : List (List ℚ)
deriving DecidableEq, Repr

/-- One entry of `processed_results` in `HybridRetriever.retrieve`. -/
structure RankedResult where
  text : String
  metadata : Meta
  distance : ℚ
  keywordScore : ℚ
  combinedScore : ℚ
  id : String
  filename : String
  pdfFilename : String
  context : String
  retrievalMethod : String
deriving DecidableEq, Repr

/-- The success payload returned by `HybridRetriever.retrieve`. -/
structure RetrieveOutput where
  status : String
  query : String
  results : List RankedResult
  documentSummary : Option String
  collection : String
  count : ℕ
  contextualRetrieval : Bool
  retrievalMethod : String
  rrfK : Option ℕ
  vectorWeight : Option ℚ
deriving DecidableEq, Repr

/-! ### The fusion step of `HybridRetriever.retrieve` -/

/-- The RRF formula of `retrieve`: `1/(v_rank + rrf_k) + 1/(k_rank + rrf_k)`. -/
def rrfScore (rrfK vRank kRank : ℕ) : ℚ :=
  1 / ((vRank : ℚ) + rrfK) + 1 / ((kRank : ℚ) + rrfK)

/-- Positional ranks of a list: `{id: rank for rank, id in enumerate(ids)}`
(dict semantics: a duplicated id keeps its first position, last rank). -/
def enumRanksAux (i : ℕ) : List String → List (String × ℕ) → List (String × ℕ)
  | [], acc => acc
  | x :: t, acc => enumRanksAux (i + 1) t (dictInsert x i acc)

/-- `{id_val: rank for rank, id_val in enumerate(l)}`. -/
def enumRanks (l : List String) : List (String × ℕ) := enumRanksAux 0 l []

/-- `vector_results["ids"][0] if vector_results["ids"] and vector_results["ids"][0] else []`:
with the truthiness checks, this is just the head-or-empty. -/
def firstRow (l : List (List α)) : List α := l.headD []

/-- `combined_scores` of the RRF branch (lines 233–259): rank both lists,
union the ids, fall back to the corpus size for a missing rank, apply the
RRF formula.  (Python iterates a `set` here, whose order is unspecified; the
order below fixes one such order — no downstream value depends on it, the
candidates are re-sorted by score.) -/
def rrfCombinedScores (rrfK topK corpusSize : ℕ) (vectorIds : List String)
    (keywordScores : List (String × ℚ)) : List (String × ℚ) :=
  let vectorRanks := enumRanks vectorIds
  let keywordRankedIds :=
    (sortDesc (fun x => getD keywordScores x 0) (keysOf keywordScores)).take (topK * 2)
  let keywordRanks := enumRanks keywordRankedIds
  let allIds := keysOf vectorRanks ++
    (keysOf keywordRanks).filter (fun x => (vectorRanks.lookup x).isNone)
  allIds.foldl
    (fun acc idVal =>
      dictInsert idVal
        (rrfScore rrfK ((vectorRanks.lookup idVal).getD corpusSize)
          ((keywordRanks.lookup idVal).getD corpusSize)) acc) []

/-- `combined_scores` of the weighted branch (lines 260–294): min-max
normalize the vector similarities when their range is positive, blend with
the (capped) keyword score for every vector id, then admit keyword-only ids
whose raw score exceeds 5. -/
def weightedCombinedScores (vectorWeight : ℚ) (vectorIds : List String)
    (vectorSimilarities : List ℚ) (keywordScores : List (String × ℚ)) :
    List (String × ℚ) :=
  let maxSim := listMax vectorSimilarities
  let minSim := listMin vectorSimilarities
  let rangeSim := maxSim - minSim
  let idToVectorSim :=
    if vectorSimilarities ≠ [] ∧ 0 < rangeSim then
      toDict (vectorIds.zip (vectorSimilarities.map fun sim => (sim - minSim) / rangeSim))
    else toDict (vectorIds.zip vectorSimilarities)
  let base := vectorIds.foldl
    (fun acc idVal =>
      let vectorSim := getD idToVectorSim idVal 0
      let keywordScore := getD keywordScores idVal 0
      let normKeywordScore := if 0 < keywordScore then min 1 (keywordScore / 10) else 0
      dictInsert idVal
        (vectorWeight * vectorSim + (1 - vectorWeight) * normKeywordScore) acc) []
  keywordScores.foldl
    (fun acc p =>
      if (acc.lookup p.1).isNone ∧ 5 < p.2 then
        dictInsert p.1 ((1 - vectorWeight) * min 1 (p.2 / 10)) acc
      else acc) base

/-- The fusion step: selects the RRF or the weighted strategy.  The keyword
score map (`keyword_scores`, the output of the BM25 scorer, a dict keyed by
the corpus ids) is a parameter here; `toDict` records that it is a dict. -/
def combinedScoresOf (useRRF : Bool) (rrfK topK : ℕ) (vectorWeight : ℚ)
    (allChunks : GetResp) (vectorResults : QueryResp)
    (keywordScores : List (String × ℚ)) : List (String × ℚ) :=
  let vectorIds := firstRow vectorResults.ids
  let vectorDistances := firstRow vectorResults.distances
  let vectorSimilarities := vectorDistances.map (fun dist => 1 - dist)
  if useRRF then
    rrfCombinedScores rrfK topK allChunks.ids.length vectorIds (toDict keywordScores)
  else
    weightedCombinedScores vectorWeight vectorIds vectorSimilarities
      (toDict keywordScores)

/-- `normalized_distances` (lines 301–318): min-max normalize the combined
scores and invert; all `1/2` when the scores have zero range; empty when
there are no candidates. -/
def normalizedDistancesOf (combinedScores : List (String × ℚ)) :
    List (String × ℚ) :=
  if combinedScores = [] then [] else
  let vals := combinedScores.map Prod.snd
  let maxScore := listMax vals
  let minScore := listMin vals
  let rangeScore := maxScore - minScore
  if 0 < rangeScore then
    combinedScores.map (fun p => (p.1, 1 - (p.2 - minScore) / rangeScore))
  else
    combinedScores.map (fun p => (p.1, 1 / 2))

/-! ### `retrieve`: id maps, result formatting, full pipeline -/

/-- `id_to_doc` / `id_to_metadata` construction (lines 216–221):
`for i, id_val in enumerate(all_chunks["ids"]): id_to_doc[id_val] =
all_chunks["documents"][i]; id_to_metadata[id_val] = all_chunks["metadatas"][i]
if all_chunks["metadatas"] else {}`.  Raises `IndexError` when the parallel
arrays are shorter than `ids`. -/
def buildIdMapsAux (documents : List String) (metadatas : List Meta) :
    List String → ℕ → List (String × String) × List (String × Meta) →
    Except String (List (String × String) × List (String × Meta))
  | [], _, acc => .ok acc
  | idVal :: rest, i, (idToDoc, idToMeta) =>
    match documents[i]? with
    | none => .error "IndexError: list index out of range"
    | some doc =>
      match (if metadatas = [] then some ([] : Meta) else metadatas[i]?) with
      | none => .error "IndexError: list index out of range"
      | some meta =>
        buildIdMapsAux documents metadatas rest (i + 1)
          (dictInsert idVal doc idToDoc, dictInsert idVal meta idToMeta)

/-- The two id-keyed maps over the corpus snapshot. -/
def buildIdMaps (allChunks : GetResp) :
    Except String (List (String × String) × List (String × Meta)) :=
  buildIdMapsAux allChunks.documents allChunks.metadatas allChunks.ids 0 ([], [])

/-- `document_summary` scan (lines 224–228): first metadata dict that is
truthy and contains the key. -/
def findDocumentSummary : List Meta → Option String
  | [] => none
  | m :: rest =>
    if m ≠ [] ∧ (m.lookup "document_summary").isSome then m.lookup "document_summary"
    else findDocumentSummary rest

/-- Result formatting for one fused id (lines 327–361): skipped (`none`)
when the id is absent from the corpus snapshot; otherwise cleans the text,
prepends the page marker, and packages the scores.  (`vector_sim` is read
from `id_to_vector_sim` in the source but not stored in the record;
`original_distances` is built and never read — both omitted.) -/
def mkResult (useRRF enableContextual : Bool)
    (idToDoc : List (String × String)) (idToMeta : List (String × Meta))
    (keywordScores combinedScores normalizedDistances : List (String × ℚ))
    (idVal : String) : Option RankedResult :=
  match idToDoc.lookup idVal with
  | none => none
  | some rawText =>
    let metadata := getD idToMeta idVal []
    let cleanedText := cleanTextContent rawText
    let pageNum :=
      match metadata.lookup "page_number" with
      | some v => some v
      | none => metadata.lookup "chunk_index"
    let cleanedText :=
      match pageNum with
      | some n => "[Page " ++ n ++ "] " ++ cleanedText
      | none => cleanedText
    let pdfFilename := getD metadata "pdf_filename" "Unknown"
    let context := if enableContextual then getD metadata "context" "" else ""
    some
      { text := cleanedText
        metadata := metadata
        distance := getD normalizedDistances idVal (1 / 2)
        keywordScore := getD keywordScores idVal 0
        combinedScore := getD combinedScores idVal 0
        id := idVal
        filename := pdfFilename
        pdfFilename := pdfFilename
        context := context
        retrievalMethod := if useRRF then "rrf" else "weighted" }

/-- The pure tail of `retrieve` once the id maps are built: fuse, sort, take
`top_k`, synthesize distances, format, package. -/
def retrieveCore (useRRF : Bool) (rrfK : ℕ) (vectorWeight : ℚ)
    (enableContextual : Bool) (collectionName query : String) (topK : ℕ)
    (allChunks : GetResp) (vectorResults : QueryResp)
    (keywordScores : List (String × ℚ))
    (idToDoc : List (String × String)) (idToMeta : List (String × Meta)) :
    RetrieveOutput :=
  let documentSummary := findDocumentSummary allChunks.metadatas
  let combinedScores :=
    combinedScoresOf useRRF rrfK topK vectorWeight allChunks vectorResults
      keywordScores
  let topIds :=
    (sortDesc (fun x => getD combinedScores x 0) (keysOf combinedScores)).take topK
  let normalizedDistances := normalizedDistancesOf combinedScores
  let processedResults :=
    topIds.filterMap
      (mkResult useRRF enableContextual idToDoc idToMeta (toDict keywordScores)
        combinedScores normalizedDistances)
  { status := "success"
    query := query
    results := processedResults
    documentSummary := documentSummary
    collection := collectionName
    count := processedResults.length
    contextualRetrieval := enableContextual
    retrievalMethod := if useRRF then "rrf" else "weighted"
    rrfK := if useRRF then some rrfK else none
    vectorWeight := if useRRF then none else some vectorWeight }

/-- `HybridRetriever.retrieve` (lines 174–374).  Inputs: the retriever
configuration (`use_rrf`, `rrf_k`, `vector_weight`, `enable_contextual`,
collection name), the call arguments (`query`, `top_k`), the two gateway
responses (the corpus snapshot from `collection.get()` and the
nearest-neighbour response from `collection.query()`), and the keyword score
map produced by the BM25 scorer over the snapshot (held abstract here: the
real-valued scorer is embedded separately; any rational score map stands for
its possible outputs).  An uncaught Python exception — there is no
`try/except` in `retrieve` — is an `Except.error`. -/
def retrieve (useRRF : Bool) (rrfK : ℕ) (vectorWeight : ℚ)
    (enableContextual : Bool) (collectionName query : String) (topK : ℕ)
    (allChunks : GetResp) (vectorResults : QueryResp)
    (keywordScores : List (String × ℚ)) : Except String RetrieveOutput :=
  match buildIdMaps allChunks with
  | .error e => .error e
  | .ok (idToDoc, idToMeta) =>
    .ok (retrieveCore useRRF rrfK vectorWeight enableContextual collectionName
      query topK allChunks vectorResults keywordScores idToDoc idToMeta)

/-- `n_results` requested from the vector gateway (line 186):
`max(1, min(top_k * 2, len(all_chunks["documents"])))`. -/
def nResultsOf (topK corpusDocs : ℕ) : ℕ := max 1 (min (topK * 2) corpusDocs)

/-! ### Projections used to state claims about `retrieve`'s outcome -/

/-- Results list of a retrieve outcome (empty on a raised exception). -/
def resultsOf (e : Except String RetrieveOutput) : List RankedResult :=
  match e with
  | .ok r => r.results
  | .error _ => []

/-- Status field, when no exception was raised. -/
def statusOf (e : Except String RetrieveOutput) : Option String :=
  match e with
  | .ok r => some r.status
  | .error _ => none

/-- Count field, when no exception was raised. -/
def countOf (e : Except String RetrieveOutput) : Option ℕ :=
  match e with
  | .ok r => some r.count
  | .error _ => none

/-- `rrf_k` field, when no exception was raised. -/
def rrfKOf (e : Except String RetrieveOutput) : Option (Option ℕ) :=
  match e with
  | .ok r => some r.rrfK
  | .error _ => none

/-- `vector_weight` field, when no exception was raised. -/
def vectorWeightOf (e : Except String RetrieveOutput) : Option (Option ℚ) :=
  match e with
  | .ok r => some r.vectorWeight
  | .error _ => none

/-- Top-level `retrieval_method` field, when no exception was raised. -/
def methodOf (e : Except String RetrieveOutput) : Option String :=
  match e with
  | .ok r => some r.retrievalMethod
  | .error _ => none

/-- Combined score of the returned result carrying a given id. -/
def resultScoreOf (e : Except String RetrieveOutput) (idVal : String) :
    Option ℚ :=
  ((resultsOf e).find? (fun r => r.id = idVal)).map (fun r => r.combinedScore)

/-! ### Gateway wrapper (`vectordb_rabbitmq_wrapper.py`) -/

/-- A correlated RabbitMQ response as consumed by `VectorDBWrapper`:
`status`, an optional `result` payload, an optional `error` string.
(`response.get("result", {})` on a success response that lacks the key is
modelled as the empty payload.) -/
structure RpcResponse (α : Type) where
  status : Option String
  result : Option α
  error : Option String

/-- The structurally-empty `get` payload returned on any failure. -/
def emptyGetResp : GetResp := { ids := [], documents := [], metadatas := [] }

/-- The nested-empty `query` payload returned on any failure. -/
def emptyQueryResp : QueryResp := { ids := [[]], distances := [[]] }

/-- `VectorDBWrapper.get` (lines 27–52): unwrap the RPC response; on any
non-success status return the empty-but-well-formed structure instead of
raising. -/
def wrapperGet (response : RpcResponse GetResp) : GetResp :=
  if response.status = some "success" then (response.result).getD emptyGetResp
  else emptyGetResp

/-- `VectorDBWrapper.query` (lines 54–90): same convention with the
nested-empty shape. -/
def wrapperQuery (response : RpcResponse QueryResp) : QueryResp :=
  if response.status = some "success" then (response.result).getD emptyQueryResp
  else emptyQueryResp

/-! ### Route-level error boundary (`vector_routes_contexual.py`) -/

/-- What `query_vector_store_sync` hands its caller: either the retrieval
payload or the `{"status": "error", "error": str(e)}` dict built in its
`except Exception` arm. -/
inductive RouteResponse where
  | result (r : RetrieveOutput)
  | errorPayload (error : String)
deriving DecidableEq, Repr

/-- `query_vector_store_sync` (lines 18–75), from the point where the
retriever is wired to the gateway responses: every exception escaping
`retrieve` is caught and converted into the error payload. -/
def queryVectorStoreSync (useRRF : Bool) (rrfK : ℕ) (vectorWeight : ℚ)
    (enableContextual : Bool) (collectionName query : String) (topK : ℕ)
    (allChunks : GetResp) (vectorResults : QueryResp)
    (keywordScores : List (String × ℚ)) : RouteResponse :=
  match retrieve useRRF rrfK vectorWeight enableContextual collectionName
      query topK allChunks vectorResults keywordScores with
  | .ok r => .result r
  | .error e => .errorPayload e

/-! ### Dictionary, sorting and filterMap lemmas -/

theorem lookup_cons_eq_if {α : Type} (x k : String) (v : α)
    (t : List (String × α)) :
    List.lookup x ((k, v) :: t) = if x = k then some v else List.lookup x t := by
  rw [List.lookup_cons]
  by_cases h : x = k
  · rw [beq_iff_eq.mpr h, if_pos h]
  · rw [beq_eq_false_iff_ne.mpr h, if_neg h]

theorem lookup_dictInsert {α : Type} :
    ∀ (l : List (String × α)) (k x : String) (v : α),
      (dictInsert k v l).lookup x = if x = k then some v else l.lookup x := by
  intro l
  induction l with
  | nil =>
    intro k x v
    simp only [dictInsert]
    exact lookup_cons_eq_if x k v []
  | cons p t ih =>
    intro k x v
    obtain ⟨k', v'⟩ := p
    simp only [dictInsert]
    by_cases hk : k' = k
    · rw [if_pos hk, lookup_cons_eq_if, lookup_cons_eq_if]
      subst hk
      by_cases h : x = k' <;> simp [h]
    · rw [if_neg hk, lookup_cons_eq_if, lookup_cons_eq_if, ih k x v]
      by_cases h : x = k'
      · have hxk : ¬x = k := fun he => hk (h ▸ he)
        rw [if_pos h, if_neg hxk, if_pos h]
      · rw [if_neg h, if_neg h]

theorem lookup_isSome_of_mem_keysOf {α : Type} :
    ∀ (l : List (String × α)) (x : String), x ∈ keysOf l → (l.lookup x).isSome := by
  intro l
  induction l with
  | nil => intro x hx; simp [keysOf] at hx
  | cons p t ih =>
    intro x hx
    obtain ⟨k, v⟩ := p
    rw [lookup_cons_eq_if]
    by_cases h : x = k
    · rw [if_pos h]; rfl
    · rw [if_neg h]
      apply ih
      simp only [keysOf, List.map_cons, List.mem_cons] at hx
      exact hx.resolve_left h

theorem lookup_map_snd {α β : Type} (f : α → β) :
    ∀ (l : List (String × α)) (x : String),
      (l.map (fun p => (p.1, f p.2))).lookup x = (l.lookup x).map f := by
  intro l
  induction l with
  | nil => intro x; rfl
  | cons p t ih =>
    intro x
    obtain ⟨k, v⟩ := p
    simp only [List.map_cons]
    rw [lookup_cons_eq_if, lookup_cons_eq_if]
    by_cases h : x = k
    · rw [if_pos h, if_pos h]; rfl
    · rw [if_neg h, if_neg h, ih x]

theorem mem_insertDesc (score : String → ℚ) (x y : String) :
    ∀ (l : List String), y ∈ insertDesc score x l ↔ y = x ∨ y ∈ l := by
  intro l
  induction l with
  | nil => simp [insertDesc]
  | cons z t ih =>
    simp only [insertDesc]
    by_cases h : score z < score x
    · rw [if_pos h]; simp
    · rw [if_neg h]
      simp only [List.mem_cons, ih]
      tauto

theorem mem_sortDesc (score : String → ℚ) :
    ∀ (l : List String) (y : String), y ∈ sortDesc score l ↔ y ∈ l := by
  intro l
  induction l with
  | nil => intro y; simp [sortDesc]
  | cons x t ih =>
    intro y
    simp only [sortDesc, mem_insertDesc, ih, List.mem_cons]

theorem length_insertDesc (score : String → ℚ) (x : String) :
    ∀ (l : List String), (insertDesc score x l).length = l.length + 1 := by
  intro l
  induction l with
  | nil => rfl
  | cons z t ih =>
    simp only [insertDesc]
    by_cases h : score z < score x
    · rw [if_pos h]; rfl
    · rw [if_neg h]
      simp [ih]

theorem length_sortDesc (score : String → ℚ) :
    ∀ (l : List String), (sortDesc score l).length = l.length := by
  intro l
  induction l with
  | nil => rfl
  | cons x t ih =>
    simp only [sortDesc, length_insertDesc, ih, List.length_cons]

theorem length_filterMap_of_isSome {α β : Type} (f : α → Option β) :
    ∀ (l : List α), (∀ x ∈ l, (f x).isSome) →
      (l.filterMap f).length = l.length := by
  intro l
  induction l with
  | nil => intro _; rfl
  | cons x t ih =>
    intro h
    have hx := h x (List.mem_cons_self x t)
    cases hfx : f x with
    | none => rw [hfx] at hx; simp at hx
    | some b =>
      rw [List.filterMap_cons, hfx]
      simp only [List.length_cons]
      rw [ih (fun y hy => h y (List.mem_cons_of_mem x hy))]

theorem buildIdMapsAux_lookup_isSome (documents : List String)
    (metadatas : List Meta) :
    ∀ (ids : List String) (i : ℕ)
      (acc : List (String × String) × List (String × Meta))
      (d : List (String × String)) (m : List (String × Meta)),
      buildIdMapsAux documents metadatas ids i acc = .ok (d, m) →
      ∀ x, (x ∈ ids ∨ (acc.1.lookup x).isSome) → (d.lookup x).isSome := by
  intro ids
  induction ids with
  | nil =>
    intro i acc d m h x hx
    simp only [buildIdMapsAux] at h
    cases h
    exact hx.resolve_left (fun hc => by simp at hc)
  | cons idVal rest ih =>
    intro i acc d m h x hx
    obtain ⟨accd, accm⟩ := acc
    simp only [buildIdMapsAux] at h
    cases hdoc : documents[i]? with
    | none => rw [hdoc] at h; cases h
    | some doc =>
      rw [hdoc] at h
      cases hmeta : (if metadatas = [] then some ([] : Meta) else metadatas[i]?) with
      | none => rw [hmeta] at h; cases h
      | some meta =>
        rw [hmeta] at h
        apply ih (i + 1) _ d m h x
        rcases hx with hx | hx
        · rcases List.mem_cons.mp hx with hx | hx
          · right
            show ((dictInsert idVal doc accd).lookup x).isSome
            rw [lookup_dictInsert, if_pos hx]
            rfl
          · exact Or.inl hx
        · right
          show ((dictInsert idVal doc accd).lookup x).isSome
          rw [lookup_dictInsert]
          by_cases hxi : x = idVal
          · rw [if_pos hxi]; rfl
          · rw [if_neg hxi]; exact hx

/-! ### Scenario B of the spec (RRF on the three-chunk corpus) -/

/-- The three-chunk corpus of spec Scenarios A/B. -/
def scenarioBGet : GetResp :=
  { ids := ["c1", "c2", "c3"]
    documents := ["power grid analysis", "cooking recipe book",
      "electrical power systems"]
    metadatas := [] }

/-- Vector search returning `c1` (rank 0) and `c3` (rank 1). -/
def scenarioBQuery : QueryResp :=
  { ids := [["c1", "c3"]], distances := [[1/10, 3/10]] }

/-- A BM25 score map (keyed in corpus order, as the scorer produces it)
whose descending ranking is `c1:0, c3:1, c2:2`, as stipulated by the
scenario. -/
def scenarioBKeywordScores : List (String × ℚ) :=
  [("c1", 10), ("c2", 1), ("c3", 5)]

/-- The Scenario-B call: `use_rrf=true`, `rrf_k=60`, `top_k=5`. -/
def scenarioBRetrieve : Except String RetrieveOutput :=
  retrieve true 60 (7/10) true "project_pdf_content" "power grid" 5
    scenarioBGet scenarioBQuery scenarioBKeywordScores

/-- C1 counterexample: on Scenario B the code computes
`combined[c2] = 1/(3+60) + 1/(2+60)` — `c2` holds lexical rank 2, so its
lexical term is `1/62`, not the claimed `1/63`. -/
theorem c1_counterexample :
    resultScoreOf scenarioBRetrieve "c2" = some (1/63 + 1/62) ∧
    (1/63 + 1/62 : ℚ) ≠ 1/(3 + 60) + 1/63 := by
  constructor
  · norm_num +decide [resultScoreOf, resultsOf, scenarioBRetrieve, scenarioBGet,
      scenarioBQuery, scenarioBKeywordScores, retrieve, buildIdMaps,
      buildIdMapsAux, dictInsert, retrieveCore, combinedScoresOf,
      rrfCombinedScores, toDict, enumRanks, enumRanksAux, sortDesc, insertDesc,
      getD, keysOf, firstRow, rrfScore, normalizedDistancesOf, listMax, listMin,
      mkResult, findDocumentSummary, lookup_cons_eq_if, List.lookup_nil,
      List.filterMap, List.foldl, List.find?]
  · norm_num

/-- C1 (amended): on Scenario B, `combined[c1] = 1/60 + 1/60 = 1/30`,
`combined[c3] = 1/61 + 1/61`, and `combined[c2] = 1/(3+60) + 1/(2+60)`:
the corpus size 3 is the fallback for `c2`'s missing vector rank, while its
lexical rank is the assigned rank 2. -/
theorem c1_scenarioB_exact :
    resultScoreOf scenarioBRetrieve "c1" = some (1/30) ∧
    resultScoreOf scenarioBRetrieve "c3" = some (1/61 + 1/61) ∧
    resultScoreOf scenarioBRetrieve "c2" = some (1/(3 + 60) + 1/(2 + 60)) := by
  refine ⟨?_, ?_, ?_⟩ <;>
  norm_num +decide [resultScoreOf, resultsOf, scenarioBRetrieve, scenarioBGet,
    scenarioBQuery, scenarioBKeywordScores, retrieve, buildIdMaps,
    buildIdMapsAux, dictInsert, retrieveCore, combinedScoresOf,
    rrfCombinedScores, toDict, enumRanks, enumRanksAux, sortDesc, insertDesc,
    getD, keysOf, firstRow, rrfScore, normalizedDistancesOf, listMax, listMin,
    mkResult, findDocumentSummary, lookup_cons_eq_if, List.lookup_nil,
    List.filterMap, List.foldl, List.find?]

/-! ### C2: the exception boundary -/

/-- A malformed corpus snapshot: one id, no parallel document.  Building
`id_to_doc` evaluates `all_chunks["documents"][0]` and raises. -/
def malformedGet : GetResp := { ids := ["c1"], documents := [], metadatas := [] }

/-- C2 counterexample: on the malformed snapshot, `retrieve` — which
contains no `try/except` — lets the `IndexError` escape as a raised fault
instead of returning a `{status: "error"}` value. -/
theorem c2_counterexample :
    retrieve true 60 (7/10) true "coll" "q" 5 malformedGet
      { ids := [[]], distances := [[]] } [] =
      .error "IndexError: list index out of range" := rfl

/-- C2 (amended): exceptions raised inside `retrieve` propagate out of
`retrieve` itself; they are caught one level up, in the route wrapper
`query_vector_store_sync`, which converts them into the
`{status: "error", error: message}` payload for its caller. -/
theorem c2_route_boundary_catches (useRRF : Bool) (rrfK : ℕ)
    (vectorWeight : ℚ) (enableContextual : Bool) (collectionName query : String)
    (topK : ℕ) (allChunks : GetResp) (vectorResults : QueryResp)
    (keywordScores : List (String × ℚ)) (e : String)
    (h : retrieve useRRF rrfK vectorWeight enableContextual collectionName
      query topK allChunks vectorResults keywordScores = .error e) :
    queryVectorStoreSync useRRF rrfK vectorWeight enableContextual
      collectionName query topK allChunks vectorResults keywordScores =
      .errorPayload e := by
  unfold queryVectorStoreSync
  rw [h]

/-- C2 witness: the route wrapper converts the concrete `IndexError` into
the error payload. -/
theorem c2_route_boundary_witness :
    retrieve false 60 (7/10) true "coll" "q" 5 malformedGet
      { ids := [[]], distances := [[]] } [] =
      .error "IndexError: list index out of range" ∧
    queryVectorStoreSync false 60 (7/10) true "coll" "q" 5 malformedGet
      { ids := [[]], distances := [[]] } [] =
      .errorPayload "IndexError: list index out of range" :=
  ⟨rfl,
   c2_route_boundary_catches false 60 (7/10) true "coll" "q" 5 malformedGet
     { ids := [[]], distances := [[]] } [] _ rfl⟩

/-! ### C5: RRF scores are bounded -/

/-- C5: in RRF mode, for any pair of non-negative integer ranks the
combined score `s` satisfies `0 < s ≤ 2/rrf_k`, with the upper bound
attained exactly when both ranks are 0. -/
theorem c5_rrf_bounded (rrfK vRank kRank : ℕ) (hk : 0 < rrfK) :
    0 < rrfScore rrfK vRank kRank ∧
    rrfScore rrfK vRank kRank ≤ 2 / (rrfK : ℚ) ∧
    (rrfScore rrfK vRank kRank = 2 / (rrfK : ℚ) ↔ vRank = 0 ∧ kRank = 0) := by
  have hkq : (0 : ℚ) < (rrfK : ℚ) := by exact_mod_cast hk
  have hv : (0 : ℚ) ≤ (vRank : ℚ) := Nat.cast_nonneg vRank
  have hkr : (0 : ℚ) ≤ (kRank : ℚ) := Nat.cast_nonneg kRank
  have hv' : (0 : ℚ) < (vRank : ℚ) + rrfK := by linarith
  have hk' : (0 : ℚ) < (kRank : ℚ) + rrfK := by linarith
  have htwo : 2 / (rrfK : ℚ) = 1 / (rrfK : ℚ) + 1 / (rrfK : ℚ) := by ring
  refine ⟨?_, ?_, ?_⟩
  · exact add_pos (by positivity) (by positivity)
  · rw [rrfScore, htwo]
    have h1 : 1 / ((vRank : ℚ) + rrfK) ≤ 1 / (rrfK : ℚ) :=
      one_div_le_one_div_of_le hkq (by linarith)
    have h2 : 1 / ((kRank : ℚ) + rrfK) ≤ 1 / (rrfK : ℚ) :=
      one_div_le_one_div_of_le hkq (by linarith)
    linarith
  · constructor
    · intro heq
      by_contra hne
      have hcase : vRank ≠ 0 ∨ kRank ≠ 0 := by tauto
      have h1 : 1 / ((vRank : ℚ) + rrfK) ≤ 1 / (rrfK : ℚ) :=
        one_div_le_one_div_of_le hkq (by linarith)
      have h2 : 1 / ((kRank : ℚ) + rrfK) ≤ 1 / (rrfK : ℚ) :=
        one_div_le_one_div_of_le hkq (by linarith)
      rcases hcase with hne1 | hne1
      · have hvpos : (0 : ℚ) < (vRank : ℚ) := by
          exact_mod_cast Nat.pos_of_ne_zero hne1
        have hlt : 1 / ((vRank : ℚ) + rrfK) < 1 / (rrfK : ℚ) :=
          one_div_lt_one_div_of_lt hkq (by linarith)
        rw [rrfScore, htwo] at heq
        linarith
      · have hvpos : (0 : ℚ) < (kRank : ℚ) := by
          exact_mod_cast Nat.pos_of_ne_zero hne1
        have hlt : 1 / ((kRank : ℚ) + rrfK) < 1 / (rrfK : ℚ) :=
          one_div_lt_one_div_of_lt hkq (by linarith)
        rw [rrfScore, htwo] at heq
        linarith
    · rintro ⟨h1, h2⟩
      subst h1; subst h2
      rw [rrfScore, htwo]
      norm_num

/-- C5 witness: instantiated at `rrf_k = 60`, ranks `1` and `2`. -/
theorem c5_rrf_bounded_witness :
    0 < 60 ∧
    (0 < rrfScore 60 1 2 ∧
     rrfScore 60 1 2 ≤ 2 / ((60 : ℕ) : ℚ) ∧
     (rrfScore 60 1 2 = 2 / ((60 : ℕ) : ℚ) ↔ 1 = 0 ∧ 2 = 0)) :=
  ⟨by decide, c5_rrf_bounded 60 1 2 (by decide)⟩

/-! ### Result-record projections and the distance/score relation -/

/-- Whether a retrieve call completed without a raised exception. -/
def isOkB (e : Except String RetrieveOutput) : Bool :=
  match e with
  | .ok _ => true
  | .error _ => false

theorem mkResult_eq_some_elim (useRRF enableContextual : Bool)
    (idToDoc : List (String × String)) (idToMeta : List (String × Meta))
    (keywordScores combinedScores normalizedDistances : List (String × ℚ))
    (idVal : String) (r : RankedResult)
    (h : mkResult useRRF enableContextual idToDoc idToMeta keywordScores
      combinedScores normalizedDistances idVal = some r) :
    r.combinedScore = getD combinedScores idVal 0 ∧
    r.distance = getD normalizedDistances idVal (1/2) ∧
    r.retrievalMethod = (if useRRF then "rrf" else "weighted") := by
  unfold mkResult at h
  cases hd : idToDoc.lookup idVal with
  | none => rw [hd] at h; cases h
  | some rawText =>
    rw [hd] at h
    simp only [] at h
    have he := Option.some.inj h
    subst he
    exact ⟨rfl, rfl, rfl⟩

theorem lookup_map_const {α β : Type} (c : β) :
    ∀ (l : List (String × α)) (x : String),
      (l.map (fun p => (p.1, c))).lookup x = (l.lookup x).map (fun _ => c) := by
  intro l
  induction l with
  | nil => intro x; rfl
  | cons p t ih =>
    intro x
    obtain ⟨k, v⟩ := p
    simp only [List.map_cons]
    rw [lookup_cons_eq_if, lookup_cons_eq_if]
    by_cases h : x = k
    · rw [if_pos h, if_pos h]; rfl
    · rw [if_neg h, if_neg h, ih x]

theorem lookup_map_normdist (minS range : ℚ) :
    ∀ (l : List (String × ℚ)) (x : String),
      (l.map (fun p => (p.1, 1 - (p.2 - minS) / range))).lookup x =
        (l.lookup x).map (fun v => 1 - (v - minS) / range) := by
  intro l
  induction l with
  | nil => intro x; rfl
  | cons p t ih =>
    intro x
    obtain ⟨k, v⟩ := p
    simp only [List.map_cons]
    rw [lookup_cons_eq_if, lookup_cons_eq_if]
    by_cases h : x = k
    · rw [if_pos h, if_pos h]; rfl
    · rw [if_neg h, if_neg h, ih x]

theorem mem_keysOf_of_mem_take_sortDesc (cs : List (String × ℚ)) (topK : ℕ)
    (score : String → ℚ) (x : String)
    (hx : x ∈ (sortDesc score (keysOf cs)).take topK) : x ∈ keysOf cs :=
  (mem_sortDesc score (keysOf cs) x).mp (List.take_subset _ _ hx)

/-- Core of the distance-inversion invariant: over any candidate score map,
the synthesized distance is antitone in the combined score. -/
theorem normalizedDistances_antitone (cs : List (String × ℚ)) (id1 id2 : String)
    (h1 : id1 ∈ keysOf cs) (h2 : id2 ∈ keysOf cs)
    (hgt : getD cs id2 0 < getD cs id1 0) :
    getD (normalizedDistancesOf cs) id1 (1/2) ≤
      getD (normalizedDistancesOf cs) id2 (1/2) := by
  obtain ⟨s1, hl1⟩ := Option.isSome_iff_exists.mp (lookup_isSome_of_mem_keysOf cs id1 h1)
  obtain ⟨s2, hl2⟩ := Option.isSome_iff_exists.mp (lookup_isSome_of_mem_keysOf cs id2 h2)
  have hcs : ¬cs = [] := by
    intro h
    subst h
    simp [keysOf] at h1
  have hg1 : getD cs id1 0 = s1 := by rw [getD, hl1]
  have hg2 : getD cs id2 0 = s2 := by rw [getD, hl2]
  rw [hg1, hg2] at hgt
  unfold normalizedDistancesOf
  rw [if_neg hcs]
  simp only []
  by_cases hr : 0 < listMax (cs.map Prod.snd) - listMin (cs.map Prod.snd)
  · rw [if_pos hr]
    rw [getD, getD, lookup_map_normdist, lookup_map_normdist, hl1, hl2]
    simp only [Option.map_some']
    have key : (s2 - listMin (cs.map Prod.snd)) /
        (listMax (cs.map Prod.snd) - listMin (cs.map Prod.snd)) ≤
        (s1 - listMin (cs.map Prod.snd)) /
        (listMax (cs.map Prod.snd) - listMin (cs.map Prod.snd)) := by
      gcongr
    linarith
  · rw [if_neg hr]
    rw [getD, getD, lookup_map_const, lookup_map_const, hl1, hl2]
    simp only [Option.map_some']
    exact le_refl _

/-- C7: within one result set of a single `retrieve` call, a result with
strictly higher `combined_score` has lower or equal `distance`. -/
theorem c7_distance_inversion (useRRF : Bool) (rrfK : ℕ) (vectorWeight : ℚ)
    (enableContextual : Bool) (collectionName query : String) (topK : ℕ)
    (allChunks : GetResp) (vectorResults : QueryResp)
    (keywordScores : List (String × ℚ)) (r1 r2 : RankedResult)
    (h1 : r1 ∈ resultsOf (retrieve useRRF rrfK vectorWeight enableContextual
      collectionName query topK allChunks vectorResults keywordScores))
    (h2 : r2 ∈ resultsOf (retrieve useRRF rrfK vectorWeight enableContextual
      collectionName query topK allChunks vectorResults keywordScores))
    (hgt : r2.combinedScore < r1.combinedScore) :
    r1.distance ≤ r2.distance := by
  unfold retrieve at h1 h2
  cases hb : buildIdMaps allChunks with
  | error e =>
    rw [hb] at h1
    simp [resultsOf] at h1
  | ok dm =>
    obtain ⟨d, m⟩ := dm
    rw [hb] at h1 h2
    simp only [resultsOf, retrieveCore] at h1 h2
    obtain ⟨i1, hi1, hm1⟩ := List.mem_filterMap.mp h1
    obtain ⟨i2, hi2, hm2⟩ := List.mem_filterMap.mp h2
    obtain ⟨hc1, hd1, -⟩ := mkResult_eq_some_elim _ _ _ _ _ _ _ _ _ hm1
    obtain ⟨hc2, hd2, -⟩ := mkResult_eq_some_elim _ _ _ _ _ _ _ _ _ hm2
    rw [hd1, hd2]
    apply normalizedDistances_antitone
    · exact mem_keysOf_of_mem_take_sortDesc _ _ _ _ hi1
    · exact mem_keysOf_of_mem_take_sortDesc _ _ _ _ hi2
    · rw [← hc1, ← hc2]
      exact hgt

/-- The `c1` result of Scenario B, as `retrieve` formats it. -/
def scenarioBResult1 : RankedResult :=
  { text := cleanTextContent "power grid analysis", metadata := [],
    distance := 0, keywordScore := 10, combinedScore := 1/30, id := "c1",
    filename := "Unknown", pdfFilename := "Unknown", context := "",
    retrievalMethod := "rrf" }

/-- The `c3` result of Scenario B, as `retrieve` formats it. -/
def scenarioBResult2 : RankedResult :=
  { text := cleanTextContent "electrical power systems", metadata := [],
    distance := 651/1586, keywordScore := 5, combinedScore := 2/61,
    id := "c3", filename := "Unknown", pdfFilename := "Unknown",
    context := "", retrievalMethod := "rrf" }

/-- C7 witness: on Scenario B, the `c1` result (score `1/30`, distance `0`)
and the `c3` result (score `2/61`, distance `651/1586`). -/
theorem c7_distance_inversion_witness :
    scenarioBResult1 ∈ resultsOf scenarioBRetrieve ∧
    scenarioBResult2 ∈ resultsOf scenarioBRetrieve ∧
    scenarioBResult2.combinedScore < scenarioBResult1.combinedScore ∧
    scenarioBResult1.distance ≤ scenarioBResult2.distance := by
  have h1 : scenarioBResult1 ∈ resultsOf scenarioBRetrieve := by
    norm_num +decide [scenarioBResult1, resultsOf, scenarioBRetrieve,
      scenarioBGet, scenarioBQuery, scenarioBKeywordScores, retrieve,
      buildIdMaps, buildIdMapsAux, dictInsert, retrieveCore, combinedScoresOf,
      rrfCombinedScores, toDict, enumRanks, enumRanksAux, sortDesc, insertDesc,
      getD, keysOf, firstRow, rrfScore, normalizedDistancesOf, listMax,
      listMin, mkResult, findDocumentSummary, lookup_cons_eq_if,
      List.lookup_nil, List.filterMap, List.foldl, RankedResult.mk.injEq]
  have h2 : scenarioBResult2 ∈ resultsOf scenarioBRetrieve := by
    norm_num +decide [scenarioBResult2, resultsOf, scenarioBRetrieve,
      scenarioBGet, scenarioBQuery, scenarioBKeywordScores, retrieve,
      buildIdMaps, buildIdMapsAux, dictInsert, retrieveCore, combinedScoresOf,
      rrfCombinedScores, toDict, enumRanks, enumRanksAux, sortDesc, insertDesc,
      getD, keysOf, firstRow, rrfScore, normalizedDistancesOf, listMax,
      listMin, mkResult, findDocumentSummary, lookup_cons_eq_if,
      List.lookup_nil, List.filterMap, List.foldl, RankedResult.mk.injEq]
  have hgt : scenarioBResult2.combinedScore < scenarioBResult1.combinedScore := by
    norm_num [scenarioBResult1, scenarioBResult2]
  exact ⟨h1, h2, hgt,
    c7_distance_inversion true 60 (7/10) true "project_pdf_content"
      "power grid" 5 scenarioBGet scenarioBQuery scenarioBKeywordScores
      scenarioBResult1 scenarioBResult2 h1 h2 hgt⟩

/-- C10: in every value returned by `retrieve`, `rrf_k` is non-null exactly
when `use_rrf` is true, `vector_weight` is non-null exactly when `use_rrf`
is false, and the top-level `retrieval_method` and every result's
`retrieval_method` equal `"rrf"` when `use_rrf` is true and `"weighted"`
otherwise. -/
theorem c10_method_flags (useRRF : Bool) (rrfK : ℕ) (vectorWeight : ℚ)
    (enableContextual : Bool) (collectionName query : String) (topK : ℕ)
    (allChunks : GetResp) (vectorResults : QueryResp)
    (keywordScores : List (String × ℚ))
    (hok : isOkB (retrieve useRRF rrfK vectorWeight enableContextual
      collectionName query topK allChunks vectorResults keywordScores) = true) :
    ((∃ k, rrfKOf (retrieve useRRF rrfK vectorWeight enableContextual
        collectionName query topK allChunks vectorResults keywordScores) =
        some (some k)) ↔ useRRF = true) ∧
    ((∃ w, vectorWeightOf (retrieve useRRF rrfK vectorWeight enableContextual
        collectionName query topK allChunks vectorResults keywordScores) =
        some (some w)) ↔ useRRF = false) ∧
    methodOf (retrieve useRRF rrfK vectorWeight enableContextual
      collectionName query topK allChunks vectorResults keywordScores) =
      some (if useRRF then "rrf" else "weighted") ∧
    ∀ res ∈ resultsOf (retrieve useRRF rrfK vectorWeight enableContextual
      collectionName query topK allChunks vectorResults keywordScores),
      res.retrievalMethod = (if useRRF then "rrf" else "weighted") := by
  unfold retrieve at hok ⊢
  cases hb : buildIdMaps allChunks with
  | error e =>
    rw [hb] at hok
    simp [isOkB] at hok
  | ok dm =>
    obtain ⟨d, m⟩ := dm
    simp only []
    have hf1 : (retrieveCore useRRF rrfK vectorWeight enableContextual
        collectionName query topK allChunks vectorResults keywordScores d
        m).rrfK = (if useRRF then some rrfK else none) := rfl
    have hf2 : (retrieveCore useRRF rrfK vectorWeight enableContextual
        collectionName query topK allChunks vectorResults keywordScores d
        m).vectorWeight = (if useRRF then none else some vectorWeight) := rfl
    have hf3 : (retrieveCore useRRF rrfK vectorWeight enableContextual
        collectionName query topK allChunks vectorResults keywordScores d
        m).retrievalMethod = (if useRRF then "rrf" else "weighted") := rfl
    refine ⟨?_, ?_, ?_, ?_⟩
    · simp only [rrfKOf, hf1]
      cases useRRF <;> simp
    · simp only [vectorWeightOf, hf2]
      cases useRRF <;> simp
    · simp only [methodOf, hf3]
    · intro res hres
      simp only [resultsOf, retrieveCore] at hres
      obtain ⟨i, hi, hmi⟩ := List.mem_filterMap.mp hres
      exact (mkResult_eq_some_elim _ _ _ _ _ _ _ _ _ hmi).2.2

/-- C10 witness: the RRF configuration on an empty corpus snapshot. -/
theorem c10_method_flags_witness :
    isOkB (retrieve true 60 (7/10) true "coll" "q" 5
      { ids := [], documents := [], metadatas := [] }
      { ids := [[]], distances := [[]] } []) = true ∧
    ((∃ k, rrfKOf (retrieve true 60 (7/10) true "coll" "q" 5
        { ids := [], documents := [], metadatas := [] }
        { ids := [[]], distances := [[]] } []) = some (some k)) ↔ true = true) ∧
    ((∃ w, vectorWeightOf (retrieve true 60 (7/10) true "coll" "q" 5
        { ids := [], documents := [], metadatas := [] }
        { ids := [[]], distances := [[]] } []) = some (some w)) ↔ true = false) ∧
    methodOf (retrieve true 60 (7/10) true "coll" "q" 5
      { ids := [], documents := [], metadatas := [] }
      { ids := [[]], distances := [[]] } []) =
      some (if true then "rrf" else "weighted") ∧
    ∀ res ∈ resultsOf (retrieve true 60 (7/10) true "coll" "q" 5
      { ids := [], documents := [], metadatas := [] }
      { ids := [[]], distances := [[]] } []),
      res.retrievalMethod = (if true then "rrf" else "weighted") :=
  ⟨rfl, c10_method_flags true 60 (7/10) true "coll" "q" 5
    { ids := [], documents := [], metadatas := [] }
    { ids := [[]], distances := [[]] } [] rfl⟩

theorem mkResult_isSome (useRRF enableContextual : Bool)
    (idToDoc : List (String × String)) (idToMeta : List (String × Meta))
    (keywordScores combinedScores normalizedDistances : List (String × ℚ))
    (idVal : String) (h : (idToDoc.lookup idVal).isSome) :
    (mkResult useRRF enableContextual idToDoc idToMeta keywordScores
      combinedScores normalizedDistances idVal).isSome := by
  unfold mkResult
  cases hd : idToDoc.lookup idVal with
  | none => rw [hd] at h; simp at h
  | some rawText => rfl

/-- C3 (amended): when no exception is raised and every fused candidate id
is present in the corpus snapshot, the number of returned results is
`min(top_k, number_of_candidate_ids)`; a candidate id absent from the
snapshot is silently dropped by the formatting loop. -/
theorem c3_fusion_topk_size (useRRF : Bool) (rrfK : ℕ) (vectorWeight : ℚ)
    (enableContextual : Bool) (collectionName query : String) (topK : ℕ)
    (allChunks : GetResp) (vectorResults : QueryResp)
    (keywordScores : List (String × ℚ))
    (hok : isOkB (retrieve useRRF rrfK vectorWeight enableContextual
      collectionName query topK allChunks vectorResults keywordScores) = true)
    (hsub : ∀ idVal ∈ keysOf (combinedScoresOf useRRF rrfK topK vectorWeight
      allChunks vectorResults keywordScores), idVal ∈ allChunks.ids) :
    (resultsOf (retrieve useRRF rrfK vectorWeight enableContextual
      collectionName query topK allChunks vectorResults keywordScores)).length =
    min topK (combinedScoresOf useRRF rrfK topK vectorWeight allChunks
      vectorResults keywordScores).length := by
  unfold retrieve at hok ⊢
  cases hb : buildIdMaps allChunks with
  | error e =>
    rw [hb] at hok
    simp [isOkB] at hok
  | ok dm =>
    obtain ⟨d, m⟩ := dm
    simp only [resultsOf, retrieveCore]
    have hAll : ∀ x ∈ (sortDesc
        (fun y => getD (combinedScoresOf useRRF rrfK topK vectorWeight
          allChunks vectorResults keywordScores) y 0)
        (keysOf (combinedScoresOf useRRF rrfK topK vectorWeight allChunks
          vectorResults keywordScores))).take topK,
        (mkResult useRRF enableContextual d m (toDict keywordScores)
          (combinedScoresOf useRRF rrfK topK vectorWeight allChunks
            vectorResults keywordScores)
          (normalizedDistancesOf (combinedScoresOf useRRF rrfK topK
            vectorWeight allChunks vectorResults keywordScores)) x).isSome := by
      intro x hx
      apply mkResult_isSome
      have hxk := mem_keysOf_of_mem_take_sortDesc _ _ _ _ hx
      exact buildIdMapsAux_lookup_isSome allChunks.documents
        allChunks.metadatas allChunks.ids 0 ([], []) d m hb x
        (Or.inl (hsub x hxk))
    rw [length_filterMap_of_isSome _ _ hAll, List.length_take, length_sortDesc]
    simp [keysOf]

/-- C3 witness: on Scenario B all three candidates are corpus chunks, and
three results are returned (`min(5, 3) = 3`). -/
theorem c3_fusion_topk_size_witness :
    isOkB scenarioBRetrieve = true ∧
    (∀ idVal ∈ keysOf (combinedScoresOf true 60 5 (7/10) scenarioBGet
      scenarioBQuery scenarioBKeywordScores), idVal ∈ scenarioBGet.ids) ∧
    (resultsOf scenarioBRetrieve).length =
      min 5 (combinedScoresOf true 60 5 (7/10) scenarioBGet scenarioBQuery
        scenarioBKeywordScores).length := by
  have hsub : ∀ idVal ∈ keysOf (combinedScoresOf true 60 5 (7/10) scenarioBGet
      scenarioBQuery scenarioBKeywordScores), idVal ∈ scenarioBGet.ids := by
    norm_num +decide [combinedScoresOf, rrfCombinedScores, toDict, dictInsert,
      enumRanks, enumRanksAux, sortDesc, insertDesc, getD, keysOf, firstRow,
      rrfScore, scenarioBGet, scenarioBQuery, scenarioBKeywordScores,
      lookup_cons_eq_if, List.lookup_nil, List.foldl]
  exact ⟨rfl, hsub,
    c3_fusion_topk_size true 60 (7/10) true "project_pdf_content" "power grid"
      5 scenarioBGet scenarioBQuery scenarioBKeywordScores rfl hsub⟩

/-- Corpus snapshot and vector response that disagree: the vector search
returned an id (`cX`) that is not in the snapshot. -/
def mismatchGet : GetResp := { ids := ["c1"], documents := ["d"], metadatas := [] }

/-- Vector response containing the phantom id `cX`. -/
def mismatchQuery : QueryResp :=
  { ids := [["c1", "cX"]], distances := [[1/10, 2/10]] }

/-- C3 counterexample: with a candidate id absent from the corpus snapshot,
`retrieve` returns 1 result although `min(top_k, number_of_candidate_ids)`
is 2 — the claimed equality fails as stated. -/
theorem c3_counterexample :
    (resultsOf (retrieve false 60 (7/10) true "coll" "q" 5 mismatchGet
      mismatchQuery [("c1", 2)])).length = 1 ∧
    min 5 (combinedScoresOf false 60 5 (7/10) mismatchGet mismatchQuery
      [("c1", 2)]).length = 2 := by
  constructor
  · norm_num +decide [resultsOf, retrieve, buildIdMaps, buildIdMapsAux,
      dictInsert, retrieveCore, combinedScoresOf, weightedCombinedScores,
      toDict, enumRanks, enumRanksAux, sortDesc, insertDesc, getD, keysOf,
      firstRow, rrfScore, normalizedDistancesOf, listMax, listMin, mkResult,
      findDocumentSummary, lookup_cons_eq_if, List.lookup_nil, List.filterMap,
      List.foldl, mismatchGet, mismatchQuery]
  · norm_num +decide [combinedScoresOf, weightedCombinedScores, toDict,
      dictInsert, getD, keysOf, firstRow, listMax, listMin, lookup_cons_eq_if,
      List.lookup_nil, List.foldl, mismatchGet, mismatchQuery]

/-! ### Lexical scorer: `_tokenize`, stop words, BM25 (`np.log` forces `ℝ`) -/

/-- Run accumulator for the tokenizer (current word reversed, rest). -/
def tokenizeAux : List Char → List Char → List String
  | acc, [] => if acc = [] then [] else [String.mk acc.reverse]
  | acc, c :: cs =>
    if isWordChar c then tokenizeAux (c :: acc) cs
    else if acc = [] then tokenizeAux [] cs
    else String.mk acc.reverse :: tokenizeAux [] cs

/-- `_tokenize` (lines 434–446): `re.findall(r'\b\w+\b', text.lower())`,
i.e. the maximal runs of word characters of the lowercased text. -/
def tokenize (text : String) : List String :=
  tokenizeAux [] (text.data.map Char.toLower)

/-- `_get_basic_stop_words` (lines 95–105). -/
def basicStopWords : List String :=
  ["a", "an", "the", "and", "or", "but", "if", "because", "as", "what",
   "which", "this", "that", "these", "those", "then", "just", "so", "than",
   "such", "when", "who", "how", "where", "why", "is", "are", "was", "were",
   "be", "been", "being", "have", "has", "had", "having", "do", "does", "did",
   "doing", "can", "could", "should", "would", "shall", "will", "may",
   "might", "must", "to", "in", "on", "at", "by", "for", "with", "about",
   "against", "between", "into", "through", "during", "before", "after",
   "above", "below", "from", "up", "down", "of"]

/-- Query preprocessing (lines 388–395): tokenize, drop stop words, and fall
back to the unfiltered tokens when nothing remains. -/
def effectiveQueryTerms (stopWords : List String) (query : String) :
    List String :=
  let queryTerms := (tokenize query).filter (fun term => term ∉ stopWords)
  if queryTerms = [] then tokenize query else queryTerms

/-- `term_freq` dict of one document (lines 413–416). -/
def termFreqDict (tokens : List String) : List (String × ℕ) :=
  tokens.foldl (fun d term => dictInsert term (getD d term 0 + 1) d) []

/-- `doc_freq` (lines 399–402): number of documents containing the term.
(The Python dict is keyed over `set(query_terms)` and always contains the
query terms looked up, so it is modelled as a function.) -/
def docFreq (docTokens : List (List String)) (term : String) : ℕ :=
  (docTokens.filter (fun tokens => term ∈ tokens)).length

/-- `avg_doc_len` (line 405), `0` on an empty corpus. -/
noncomputable def avgDocLen (docTokens : List (List String)) : ℝ :=
  if docTokens = [] then 0
  else (((docTokens.map List.length).sum : ℕ) : ℝ) / ((docTokens.length : ℕ) : ℝ)

/-- `k1 = 1.5`, term-saturation parameter (line 63). -/
noncomputable def bm25K1 : ℝ := 1.5

/-- `b = 0.75`, length-normalization parameter (line 64). -/
noncomputable def bm25B : ℝ := 0.75

/-- `idf = max(0, log((N − df + 0.5)/(df + 0.5)))` (lines 421–423). -/
noncomputable def bm25Idf (n df : ℕ) : ℝ :=
  max 0 (Real.log (((n : ℝ) - (df : ℝ) + 0.5) / ((df : ℝ) + 0.5)))

/-- One term's BM25 contribution (lines 425–428):
`idf * (tf*(k1+1)) / (tf + k1*(1 − b + b*doc_len/avg_doc_len))`. -/
noncomputable def bm25TermValue (idfVal : ℝ) (tf dl : ℕ) (avgdl : ℝ) : ℝ :=
  idfVal * ((tf : ℝ) * (bm25K1 + 1)) /
    ((tf : ℝ) + bm25K1 * (1 - bm25B + bm25B * (dl : ℝ) / avgdl))

/-- Score of one document (lines 408–428): fold over the query terms, adding
the BM25 contribution when the term occurs in the document and has positive
document frequency. -/
noncomputable def bm25DocScore (queryTerms : List String) (n : ℕ)
    (dfOf : String → ℕ) (avgdl : ℝ) (tokens : List String) : ℝ :=
  queryTerms.foldl
    (fun score term =>
      if ((termFreqDict tokens).lookup term).isSome ∧ 0 < dfOf term then
        score + bm25TermValue (bm25Idf n (dfOf term))
          (getD (termFreqDict tokens) term 0) tokens.length avgdl
      else score) 0

/-- The `scores[doc_ids[i]] = score` loop (lines 408–430): raises
`IndexError` when `doc_ids` is shorter than the token lists. -/
def calculateKeywordScoresAux (score : List String → ℝ) :
    List (List String) → List String → List (String × ℝ) →
    Except String (List (String × ℝ))
  | [], _, acc => .ok acc
  | _ :: _, [], _ => .error "IndexError: list index out of range"
  | tokens :: rest, idVal :: ids, acc =>
    calculateKeywordScoresAux score rest ids
      (dictInsert idVal (score tokens) acc)

/-- `_calculate_keyword_scores` (lines 376–432). -/
noncomputable def calculateKeywordScores (stopWords : List String)
    (query : String) (documents docIds : List String) :
    Except String (List (String × ℝ)) :=
  let queryTerms := effectiveQueryTerms stopWords query
  let docTokens := documents.map tokenize
  calculateKeywordScoresAux
    (fun tokens => bm25DocScore queryTerms documents.length
      (docFreq docTokens) (avgDocLen docTokens) tokens)
    docTokens docIds []

/-- `_calculate_contextual_keyword_scores` (lines 108–171): identical to the
plain scorer except that, when contexts are supplied (a truthy list) and
contextual mode is on, each document's tokens are extended with its own
context's tokens before scoring. -/
noncomputable def calculateContextualKeywordScores (stopWords : List String)
    (enableContextual : Bool) (query : String) (documents docIds : List String)
    (contexts : Option (List String)) : Except String (List (String × ℝ)) :=
  let queryTerms := effectiveQueryTerms stopWords query
  let docTokens0 := documents.map tokenize
  let docTokens :=
    match contexts with
    | some ctxs =>
      if ctxs ≠ [] ∧ enableContextual then
        List.zipWith (fun docTok ctx => docTok ++ tokenize ctx) docTokens0 ctxs
      else docTokens0
    | none => docTokens0
  calculateKeywordScoresAux
    (fun tokens => bm25DocScore queryTerms documents.length
      (docFreq docTokens) (avgDocLen docTokens) tokens)
    docTokens docIds []

/-- Modelled from the spec: the classic per-term Okapi BM25 sum
`Σ idf·tf·(k1+1)/(tf + k1·(1 − b + b·doclen/avgdl))` over the query terms,
as a function of a term-frequency assignment; a term absent from the
document (`tf = 0`) or with zero document frequency contributes zero. -/
noncomputable def bm25ScoreOfTf (queryTerms : List String) (n : ℕ)
    (dfOf : String → ℕ) (dl : ℕ) (avgdl : ℝ) (tfOf : String → ℕ) : ℝ :=
  (queryTerms.map (fun term =>
    if tfOf term = 0 ∨ dfOf term = 0 then 0
    else bm25Idf n (dfOf term) * ((tfOf term : ℝ) * (bm25K1 + 1)) /
      ((tfOf term : ℝ) + bm25K1 *
        (1 - bm25B + bm25B * (dl : ℝ) / avgdl)))).sum

/-- The spec's score of one document: the BM25 sum with `tf` the term count
in the document's token list. -/
noncomputable def keywordScoreSpec (queryTerms : List String) (n : ℕ)
    (dfOf : String → ℕ) (avgdl : ℝ) (tokens : List String) : ℝ :=
  bm25ScoreOfTf queryTerms n dfOf tokens.length avgdl
    (fun term => tokens.count term)

/-! ### Scorer lemmas: term frequencies, score-map construction -/

theorem lookup_termFreq_foldl :
    ∀ (tokens : List String) (acc : List (String × ℕ)) (t : String),
      ((tokens.foldl (fun d term => dictInsert term (getD d term 0 + 1) d)
        acc).lookup t) =
        match acc.lookup t with
        | some n => some (n + tokens.count t)
        | none => if tokens.count t = 0 then none else some (tokens.count t) := by
  intro tokens
  induction tokens with
  | nil =>
    intro acc t
    simp only [List.foldl_nil, List.count_nil]
    cases acc.lookup t <;> simp
  | cons tok rest ih =>
    intro acc t
    simp only [List.foldl_cons]
    rw [ih, lookup_dictInsert]
    by_cases ht : t = tok
    · subst ht
      rw [if_pos rfl, List.count_cons_self]
      cases hacc : List.lookup t acc with
      | none => simp [getD, hacc]; omega
      | some n => simp [getD, hacc]; omega
    · rw [if_neg ht, List.count_cons_of_ne (fun he => ht (by simpa using he))]

theorem lookup_termFreqDict (tokens : List String) (t : String) :
    (termFreqDict tokens).lookup t =
      if tokens.count t = 0 then none else some (tokens.count t) := by
  unfold termFreqDict
  rw [lookup_termFreq_foldl]
  rfl

theorem calculateKeywordScoresAux_ok (score : List String → ℝ) :
    ∀ (toksList : List (List String)) (ids : List String)
      (acc : List (String × ℝ)), toksList.length ≤ ids.length →
      ∃ scores, calculateKeywordScoresAux score toksList ids acc = .ok scores := by
  intro toksList
  induction toksList with
  | nil => intro ids acc _; exact ⟨acc, rfl⟩
  | cons toks rest ih =>
    intro ids acc hlen
    cases ids with
    | nil => simp at hlen
    | cons idVal ids' =>
      simp only [calculateKeywordScoresAux]
      exact ih ids' _ (by simpa using hlen)

theorem calculateKeywordScoresAux_lookup_stable (score : List String → ℝ) :
    ∀ (toksList : List (List String)) (ids : List String)
      (acc scores : List (String × ℝ)) (k : String),
      calculateKeywordScoresAux score toksList ids acc = .ok scores →
      k ∉ ids → scores.lookup k = acc.lookup k := by
  intro toksList
  induction toksList with
  | nil =>
    intro ids acc scores k h _
    cases h
    rfl
  | cons toks rest ih =>
    intro ids acc scores k h hk
    cases ids with
    | nil => cases h
    | cons idVal ids' =>
      simp only [calculateKeywordScoresAux] at h
      have hk1 : k ≠ idVal := fun he => hk (he ▸ List.mem_cons_self idVal ids')
      have hk2 : k ∉ ids' := fun hm => hk (List.mem_cons_of_mem idVal hm)
      rw [ih ids' _ scores k h hk2, lookup_dictInsert, if_neg hk1]

theorem calculateKeywordScoresAux_lookup_zip (score : List String → ℝ) :
    ∀ (toksList : List (List String)) (ids : List String)
      (acc scores : List (String × ℝ)), ids.Nodup →
      calculateKeywordScoresAux score toksList ids acc = .ok scores →
      ∀ p ∈ ids.zip toksList, scores.lookup p.1 = some (score p.2) := by
  intro toksList
  induction toksList with
  | nil =>
    intro ids acc scores _ _ p hp
    rw [List.zip_nil_right] at hp
    cases hp
  | cons toks rest ih =>
    intro ids acc scores hnd h p hp
    cases ids with
    | nil => cases h
    | cons idVal ids' =>
      simp only [calculateKeywordScoresAux] at h
      obtain ⟨hni, hnd'⟩ := List.nodup_cons.mp hnd
      rw [List.zip_cons_cons] at hp
      rcases List.mem_cons.mp hp with hp | hp
      · subst hp
        rw [calculateKeywordScoresAux_lookup_stable score rest ids' _ scores
          idVal h hni, lookup_dictInsert, if_pos rfl]
      · exact ih ids' _ scores hnd' h p hp

theorem mem_zip_map {α β γ : Type} (f : β → γ) :
    ∀ (ids : List α) (l : List β) (p : α × β),
      p ∈ ids.zip l → (p.1, f p.2) ∈ ids.zip (l.map f) := by
  intro ids
  induction ids with
  | nil => intro l p hp; simp at hp
  | cons a as ih =>
    intro l p hp
    cases l with
    | nil => simp at hp
    | cons b bs =>
      rw [List.zip_cons_cons] at hp
      rw [List.map_cons, List.zip_cons_cons]
      rcases List.mem_cons.mp hp with hp | hp
      · subst hp
        exact List.mem_cons_self _ _
      · exact List.mem_cons_of_mem _ (ih bs p hp)

theorem foldl_guarded_add (cond : String → Prop) [DecidablePred cond]
    (f : String → ℝ) :
    ∀ (l : List String) (a : ℝ),
      l.foldl (fun s t => if cond t then s + f t else s) a =
        a + (l.map (fun t => if cond t then f t else 0)).sum := by
  intro l
  induction l with
  | nil => intro a; simp
  | cons t rest ih =>
    intro a
    simp only [List.foldl_cons, List.map_cons, List.sum_cons]
    by_cases h : cond t
    · rw [if_pos h, if_pos h, ih]
      ring
    · rw [if_neg h, if_neg h, ih]
      ring

/-- The fold the code performs equals the spec's per-term sum with `tf` the
token count: the `term_freq` dict lookup agrees with `List.count`, and the
membership guard with `tf ≠ 0`. -/
theorem bm25DocScore_eq_spec (queryTerms : List String) (n : ℕ)
    (dfOf : String → ℕ) (avgdl : ℝ) (tokens : List String) :
    bm25DocScore queryTerms n dfOf avgdl tokens =
      keywordScoreSpec queryTerms n dfOf avgdl tokens := by
  unfold bm25DocScore keywordScoreSpec bm25ScoreOfTf
  rw [foldl_guarded_add, zero_add]
  congr 1
  apply List.map_congr_left
  intro term _
  by_cases hc : ((termFreqDict tokens).lookup term).isSome ∧ 0 < dfOf term
  · have hcount : tokens.count term ≠ 0 := by
      intro h0
      rw [lookup_termFreqDict, if_pos h0] at hc
      simp at hc
    have hg : getD (termFreqDict tokens) term 0 = tokens.count term := by
      rw [getD, lookup_termFreqDict, if_neg hcount]
    rw [if_pos hc, if_neg (by push_neg; exact ⟨hcount, by have := hc.2; omega⟩)]
    simp only [bm25TermValue, hg]
  · rw [if_neg hc]
    push_neg at hc
    by_cases hcount : tokens.count term = 0
    · rw [if_pos (Or.inl hcount)]
    · have : ((termFreqDict tokens).lookup term).isSome := by
        rw [lookup_termFreqDict, if_neg hcount]
        rfl
      have hdf : dfOf term = 0 := by
        have := hc this
        omega
      rw [if_pos (Or.inr hdf)]

theorem avgDocLen_nonneg (docTokens : List (List String)) :
    0 ≤ avgDocLen docTokens := by
  unfold avgDocLen
  split
  · exact le_refl 0
  · positivity

theorem bm25ScoreOfTf_nonneg (queryTerms : List String) (n : ℕ)
    (dfOf : String → ℕ) (dl : ℕ) (avgdl : ℝ) (havg : 0 ≤ avgdl)
    (tfOf : String → ℕ) : 0 ≤ bm25ScoreOfTf queryTerms n dfOf dl avgdl tfOf := by
  unfold bm25ScoreOfTf
  apply List.sum_nonneg
  intro x hx
  obtain ⟨term, -, rfl⟩ := List.mem_map.mp hx
  by_cases hc : tfOf term = 0 ∨ dfOf term = 0
  · rw [if_pos hc]
  · rw [if_neg hc]
    apply div_nonneg
    · apply mul_nonneg (le_max_left 0 _)
      apply mul_nonneg (Nat.cast_nonneg _)
      rw [bm25K1]
      norm_num
    · apply add_nonneg (Nat.cast_nonneg _)
      apply mul_nonneg
      · rw [bm25K1]; norm_num
      · have hdiv : 0 ≤ bm25B * (dl : ℝ) / avgdl :=
          div_nonneg (mul_nonneg (by rw [bm25B]; norm_num) (Nat.cast_nonneg _))
            havg
        rw [bm25B] at hdiv ⊢
        norm_num
        linarith

/-- C4 (amended): for every query and non-empty document list (with ids
parallel and unique, as the corpus invariant guarantees), the score assigned
to each document is the Okapi BM25 sum over the *effective* query terms —
the stopword-filtered terms, or the original tokenized terms when filtering
removes them all — with `idf = max(0, ln((N − df + 0.5)/(df + 0.5)))`,
`k1 = 1.5`, `b = 0.75`, a term absent from the document or with zero
document frequency contributing zero; and every produced score is a
non-negative real. -/
theorem c4_bm25_formula (stopWords : List String) (query : String)
    (documents docIds : List String) (_hne : documents ≠ [])
    (hlen : documents.length = docIds.length) (hnd : docIds.Nodup) :
    ∃ scores, calculateKeywordScores stopWords query documents docIds =
      .ok scores ∧
      ∀ p ∈ docIds.zip documents,
        scores.lookup p.1 = some (keywordScoreSpec
          (effectiveQueryTerms stopWords query) documents.length
          (docFreq (documents.map tokenize))
          (avgDocLen (documents.map tokenize)) (tokenize p.2)) ∧
        0 ≤ keywordScoreSpec (effectiveQueryTerms stopWords query)
          documents.length (docFreq (documents.map tokenize))
          (avgDocLen (documents.map tokenize)) (tokenize p.2) := by
  have hlen' : (documents.map tokenize).length ≤ docIds.length := by
    rw [List.length_map]
    omega
  obtain ⟨scores, hok⟩ := calculateKeywordScoresAux_ok
    (fun tokens => bm25DocScore (effectiveQueryTerms stopWords query)
      documents.length (docFreq (documents.map tokenize))
      (avgDocLen (documents.map tokenize)) tokens)
    (documents.map tokenize) docIds [] hlen'
  refine ⟨scores, hok, ?_⟩
  intro p hp
  have hp' := mem_zip_map tokenize docIds documents p hp
  have hlook := calculateKeywordScoresAux_lookup_zip _ (documents.map tokenize)
    docIds [] scores hnd hok _ hp'
  constructor
  · rw [hlook]
    exact congrArg some (bm25DocScore_eq_spec _ _ _ _ _)
  · exact bm25ScoreOfTf_nonneg _ _ _ _ _ (avgDocLen_nonneg _) _

/-- C4 witness: one-document corpus, no stop words removed. -/
theorem c4_bm25_formula_witness :
    (["cat"] ≠ ([] : List String)) ∧
    (["cat"] : List String).length = (["d0"] : List String).length ∧
    (["d0"] : List String).Nodup ∧
    (∃ scores, calculateKeywordScores [] "cat" ["cat"] ["d0"] = .ok scores ∧
      ∀ p ∈ (["d0"] : List String).zip ["cat"],
        scores.lookup p.1 = some (keywordScoreSpec
          (effectiveQueryTerms [] "cat") (["cat"] : List String).length
          (docFreq ((["cat"] : List String).map tokenize))
          (avgDocLen ((["cat"] : List String).map tokenize)) (tokenize p.2)) ∧
        0 ≤ keywordScoreSpec (effectiveQueryTerms [] "cat")
          (["cat"] : List String).length
          (docFreq ((["cat"] : List String).map tokenize))
          (avgDocLen ((["cat"] : List String).map tokenize)) (tokenize p.2)) :=
  ⟨by decide, by decide, by decide,
   c4_bm25_formula [] "cat" ["cat"] ["d0"] (by decide) (by decide) (by decide)⟩

/-- Score looked up in a scorer outcome. -/
def lookupScoreR (e : Except String (List (String × ℝ))) (idVal : String) :
    Option ℝ :=
  match e with
  | .ok scores => scores.lookup idVal
  | .error _ => none

/-- C4 counterexample: for the all-stopword query `"the"` the
stopword-filtered term list is empty — the claimed sum over it is the empty
sum `0` — yet the code falls back to the unfiltered tokens and assigns the
document `"the the"` a strictly positive score. -/
theorem c4_counterexample :
    (tokenize "the").filter (fun t => t ∉ basicStopWords) = [] ∧
    lookupScoreR (calculateKeywordScores basicStopWords "the"
      ["the the", "cat", "dog"] ["d0", "d1", "d2"]) "d0" ≠ some 0 := by
  refine ⟨by decide, ?_⟩
  have heval : lookupScoreR (calculateKeywordScores basicStopWords "the"
      ["the the", "cat", "dog"] ["d0", "d1", "d2"]) "d0" =
      some (bm25DocScore (effectiveQueryTerms basicStopWords "the") 3
        (docFreq (["the the", "cat", "dog"].map tokenize))
        (avgDocLen (["the the", "cat", "dog"].map tokenize))
        (tokenize "the the")) := rfl
  rw [heval]
  intro hcontra
  have h0 := Option.some.inj hcontra
  have hqt : effectiveQueryTerms basicStopWords "the" = ["the"] := by decide
  have hdt : (["the the", "cat", "dog"].map tokenize) =
      [["the", "the"], ["cat"], ["dog"]] := rfl
  have htok : tokenize "the the" = ["the", "the"] := rfl
  have hdf : docFreq [["the", "the"], ["cat"], ["dog"]] "the" = 1 := rfl
  have havg : avgDocLen [["the", "the"], ["cat"], ["dog"]] = 4/3 := by
    unfold avgDocLen
    rw [if_neg (by decide)]
    norm_num
  rw [hqt, hdt, htok, havg] at h0
  unfold bm25DocScore at h0
  simp only [List.foldl_cons, List.foldl_nil] at h0
  have hcond : (((termFreqDict ["the", "the"]).lookup "the").isSome = true) ∧
      0 < docFreq [["the", "the"], ["cat"], ["dog"]] "the" := by
    constructor
    · decide
    · rw [hdf]; omega
  rw [if_pos hcond, zero_add] at h0
  have hg : getD (termFreqDict ["the", "the"]) "the" 0 = 2 := rfl
  rw [hg, hdf] at h0
  have hpos : 0 < bm25TermValue (bm25Idf 3 1) 2
      (["the", "the"] : List String).length (4/3) := by
    unfold bm25TermValue bm25Idf bm25K1 bm25B
    have harg : (((3:ℕ) : ℝ) - ((1:ℕ) : ℝ) + 0.5) / (((1:ℕ) : ℝ) + 0.5) =
        5/3 := by
      push_cast
      norm_num
    rw [harg]
    have hidf : 0 < max 0 (Real.log (5/3)) :=
      lt_of_lt_of_le (Real.log_pos (by norm_num)) (le_max_right _ _)
    apply div_pos
    · apply mul_pos hidf
      push_cast
      norm_num
    · push_cast
      norm_num
  exact absurd h0 (ne_of_gt hpos)

/-- C6: for a fixed corpus (N, document frequencies, average length) and a
fixed document token-list length, raising a term's frequency never decreases
the BM25 score; and the program's per-document score is exactly this
tf-indexed sum evaluated at the document's term counts. -/
theorem c6_bm25_monotone (queryTerms : List String) (n : ℕ)
    (dfOf : String → ℕ) (dl : ℕ) (avgdl : ℝ) (tf1 tf2 : String → ℕ)
    (havg : 0 < avgdl) (hmono : ∀ t, tf1 t ≤ tf2 t) :
    bm25ScoreOfTf queryTerms n dfOf dl avgdl tf1 ≤
      bm25ScoreOfTf queryTerms n dfOf dl avgdl tf2 ∧
    ∀ tokens, bm25DocScore queryTerms n dfOf avgdl tokens =
      bm25ScoreOfTf queryTerms n dfOf tokens.length avgdl
        (fun term => tokens.count term) := by
  constructor
  · unfold bm25ScoreOfTf
    apply List.sum_le_sum
    intro term _
    set C := bm25K1 * (1 - bm25B + bm25B * (dl : ℝ) / avgdl) with hC
    have hCpos : 0 < C := by
      rw [hC, bm25K1, bm25B]
      have hq : 0 ≤ 0.75 * (dl : ℝ) / avgdl :=
        div_nonneg (mul_nonneg (by norm_num) (Nat.cast_nonneg _))
          (le_of_lt havg)
      nlinarith
    have hk1 : (0 : ℝ) < bm25K1 + 1 := by rw [bm25K1]; norm_num
    by_cases h1 : tf1 term = 0 ∨ dfOf term = 0
    · rw [if_pos h1]
      by_cases h2 : tf2 term = 0 ∨ dfOf term = 0
      · rw [if_pos h2]
      · rw [if_neg h2]
        apply div_nonneg
        · exact mul_nonneg (le_max_left _ _)
            (mul_nonneg (Nat.cast_nonneg _) (le_of_lt hk1))
        · exact add_nonneg (Nat.cast_nonneg _) (le_of_lt hCpos)
    · rw [if_neg h1]
      push_neg at h1
      have h2 : ¬(tf2 term = 0 ∨ dfOf term = 0) := by
        push_neg
        refine ⟨?_, h1.2⟩
        have := hmono term
        have := h1.1
        omega
      rw [if_neg h2]
      have hc1 : (0 : ℝ) < (tf1 term : ℝ) := by
        exact_mod_cast Nat.pos_of_ne_zero h1.1
      have hc12 : ((tf1 term : ℕ) : ℝ) ≤ ((tf2 term : ℕ) : ℝ) :=
        Nat.cast_le.mpr (hmono term)
      have hidf : 0 ≤ bm25Idf n (dfOf term) := le_max_left _ _
      have hd1 : (0 : ℝ) < (tf1 term : ℝ) + C := by linarith
      have hd2 : (0 : ℝ) < (tf2 term : ℝ) + C := by linarith
      rw [div_le_div_iff₀ hd1 hd2]
      nlinarith [mul_nonneg (mul_nonneg hidf (le_of_lt hk1))
        (mul_nonneg (le_of_lt hCpos) (sub_nonneg.mpr hc12))]
  · intro tokens
    exact bm25DocScore_eq_spec queryTerms n dfOf avgdl tokens

/-- C6 witness: one query term, `tf` raised from 1 to 2. -/
theorem c6_bm25_monotone_witness :
    (0 : ℝ) < 2 ∧
    (∀ t : String, (fun _ => 1 : String → ℕ) t ≤ (fun _ => 2 : String → ℕ) t) ∧
    (bm25ScoreOfTf ["x"] 2 (fun _ => 1) 3 2 (fun _ => 1) ≤
       bm25ScoreOfTf ["x"] 2 (fun _ => 1) 3 2 (fun _ => 2) ∧
     ∀ tokens, bm25DocScore ["x"] 2 (fun _ => 1) 2 tokens =
       bm25ScoreOfTf ["x"] 2 (fun _ => 1) tokens.length 2
         (fun term => tokens.count term)) :=
  ⟨two_pos, fun _ => Nat.le_succ 1,
   c6_bm25_monotone ["x"] 2 (fun _ => 1) 3 2 (fun _ => 1) (fun _ => 2)
     two_pos (fun _ => Nat.le_succ 1)⟩

/-! ### C9: empty corpus and gateway degradation -/

theorem filterMap_eq_nil_of_none {α β : Type} (f : α → Option β)
    (hf : ∀ a, f a = none) : ∀ l : List α, l.filterMap f = [] := by
  intro l
  induction l with
  | nil => rfl
  | cons a t ih => simp [List.filterMap_cons, hf a, ih]

/-- C9: an empty corpus snapshot is not an error — `retrieve` returns
`status "success"`, `count 0`, empty `results` (the scorer yields the empty
score map on the empty corpus, whatever the query); and on any non-success
RPC response the gateway wrapper returns the structurally valid empty
payload (flat for `get`, nested for `query`) instead of raising. -/
theorem c9_empty_and_degraded :
    (∀ (stopWords : List String) (query : String),
      calculateKeywordScores stopWords query [] [] = .ok []) ∧
    (∀ (useRRF : Bool) (rrfK : ℕ) (vectorWeight : ℚ) (enableContextual : Bool)
      (collectionName query : String) (topK : ℕ) (metadatas : List Meta)
      (vectorResults : QueryResp),
      statusOf (retrieve useRRF rrfK vectorWeight enableContextual
        collectionName query topK
        { ids := [], documents := [], metadatas := metadatas }
        vectorResults []) = some "success" ∧
      countOf (retrieve useRRF rrfK vectorWeight enableContextual
        collectionName query topK
        { ids := [], documents := [], metadatas := metadatas }
        vectorResults []) = some 0 ∧
      resultsOf (retrieve useRRF rrfK vectorWeight enableContextual
        collectionName query topK
        { ids := [], documents := [], metadatas := metadatas }
        vectorResults []) = []) ∧
    (∀ response : RpcResponse GetResp, response.status ≠ some "success" →
      wrapperGet response = emptyGetResp) ∧
    (∀ response : RpcResponse QueryResp, response.status ≠ some "success" →
      wrapperQuery response = emptyQueryResp) := by
  refine ⟨fun _ _ => rfl, ?_, ?_, ?_⟩
  · intro useRRF rrfK vectorWeight enableContextual collectionName query topK
      metadatas vectorResults
    have hb : buildIdMaps
        { ids := [], documents := [], metadatas := metadatas } =
        .ok ([], []) := rfl
    have hretr : retrieve useRRF rrfK vectorWeight enableContextual
        collectionName query topK
        { ids := [], documents := [], metadatas := metadatas }
        vectorResults [] =
        .ok (retrieveCore useRRF rrfK vectorWeight enableContextual
          collectionName query topK
          { ids := [], documents := [], metadatas := metadatas }
          vectorResults [] [] []) := by
      unfold retrieve
      rw [hb]
    have hnone : ∀ a, mkResult useRRF enableContextual [] []
        (toDict ([] : List (String × ℚ)))
        (combinedScoresOf useRRF rrfK topK vectorWeight
          { ids := [], documents := [], metadatas := metadatas }
          vectorResults [])
        (normalizedDistancesOf (combinedScoresOf useRRF rrfK topK vectorWeight
          { ids := [], documents := [], metadatas := metadatas }
          vectorResults [])) a = none := fun a => rfl
    refine ⟨?_, ?_, ?_⟩
    · rw [hretr]
      rfl
    · rw [hretr]
      simp only [countOf, retrieveCore]
      rw [filterMap_eq_nil_of_none _ hnone]
      rfl
    · rw [hretr]
      simp only [resultsOf, retrieveCore]
      exact filterMap_eq_nil_of_none _ hnone _
  · intro response h
    unfold wrapperGet
    rw [if_neg h]
  · intro response h
    unfold wrapperQuery
    rw [if_neg h]

/-- C9 witness: concrete empty snapshot and a failed RPC response. -/
theorem c9_witness :
    calculateKeywordScores basicStopWords "q" [] [] = .ok [] ∧
    statusOf (retrieve true 60 (7/10) true "coll" "q" 5
      { ids := [], documents := [], metadatas := [] }
      { ids := [[]], distances := [[]] } []) = some "success" ∧
    countOf (retrieve true 60 (7/10) true "coll" "q" 5
      { ids := [], documents := [], metadatas := [] }
      { ids := [[]], distances := [[]] } []) = some 0 ∧
    resultsOf (retrieve true 60 (7/10) true "coll" "q" 5
      { ids := [], documents := [], metadatas := [] }
      { ids := [[]], distances := [[]] } []) = [] ∧
    (({ status := some "error", result := none, error := some "boom" } :
        RpcResponse GetResp).status ≠ some "success") ∧
    wrapperGet { status := some "error", result := none, error := some "boom" } =
      emptyGetResp ∧
    wrapperQuery { status := some "error", result := none, error := some "boom" } =
      emptyQueryResp := by
  refine ⟨c9_empty_and_degraded.1 basicStopWords "q", ?_, ?_, ?_, by decide,
    c9_empty_and_degraded.2.2.1 _ (by decide),
    c9_empty_and_degraded.2.2.2 _ (by decide)⟩
  · exact (c9_empty_and_degraded.2.1 true 60 (7/10) true "coll" "q" 5 []
      { ids := [[]], distances := [[]] }).1
  · exact (c9_empty_and_degraded.2.1 true 60 (7/10) true "coll" "q" 5 []
      { ids := [[]], distances := [[]] }).2.1
  · exact (c9_empty_and_degraded.2.1 true 60 (7/10) true "coll" "q" 5 []
      { ids := [[]], distances := [[]] }).2.2

/-! ### C8: idempotence of text cleaning -/

/-- C8 counterexample: on `"PPage 1 of 2age 3 of 4"` the first pass removes
the embedded `Page 1 of 2` and thereby splices together a new
`Page 3 of 4`, which only a second pass removes — cleaning twice differs
from cleaning once. -/
theorem c8_counterexample :
    cleanTextContent "PPage 1 of 2age 3 of 4" = "Page 3 of 4" ∧
    cleanTextContent (cleanTextContent "PPage 1 of 2age 3 of 4") = "" ∧
    cleanTextContent (cleanTextContent "PPage 1 of 2age 3 of 4") ≠
      cleanTextContent "PPage 1 of 2age 3 of 4" := by
  refine ⟨by decide, by decide, by decide⟩

/-- C8 (amended): applying the text cleaning twice yields the same output
as applying it once whenever the once-cleaned text is free of removable
artifacts (no header block, `Page X of Y`, `Image: …` line, 40+ `=`
separator run or 3+ newline run, and no leading/trailing whitespace); a
single pass can splice together a new artifact occurrence, on which
idempotence fails. -/
theorem c8_clean_idempotent_on_artifact_free (s : String)
    (h : artifactFree (cleanTextContent s) = true) :
    cleanTextContent (cleanTextContent s) = cleanTextContent s :=
  cleanTextContent_of_artifactFree (cleanTextContent s) h

/-- C8 witness: a text whose cleaned form is artifact-free. -/
theorem c8_clean_idempotent_witness :
    artifactFree (cleanTextContent "hello\n\n\n\nworld  ") = true ∧
    cleanTextContent (cleanTextContent "hello\n\n\n\nworld  ") =
      cleanTextContent "hello\n\n\n\nworld  " :=
  ⟨by decide, c8_clean_idempotent_on_artifact_free "hello\n\n\n\nworld  "
    (by decide)⟩
